/-
Verification of the badminton-bot forecast-and-decision pipeline.

Shallow embedding of the core modules (src/decision/rules.py,
src/models/baseline.py, src/models/lstm_model.py, src/models/quantiles.py,
src/eval/metrics.py, src/data/preprocess.py) over rational numbers.
Python floats are modelled as ℚ, pandas Series / numpy arrays as Lists,
nullable (NaN-able) columns as `Option ℚ`, Python dicts as association
lists, and raisable functions as `Except String`.
-/
import Mathlib

namespace BadmintonBot

/-! ## Decision engine (src/decision/rules.py)

`decide_play` iterates over the keys of `median_forecast` (a Python dict,
modelled as an association list with unique keys), looks each key up in
`q90_forecast` (a missing key is a `KeyError`, modelled as `Except.error`),
strips a `horizon_` label prefix for the details key, and records a
violation tag whenever a value is strictly above its threshold.  The
decision is `PLAY` exactly when the violation list is empty.  The
`thresholds` argument's `play` section is modelled as a structure holding
the two required keys and the optional `prob_over_3m_s_max` key (the code
reads it with `.get(..., 1.0)`). -/

/-- The `play` section of the threshold configuration
(`thresholds["play"]` in `decide_play`). -/
structure PlaySection where
  median_max_m_s : ℚ
  q90_max_m_s : ℚ
  prob_over_3m_s_max : Option ℚ
  deriving Repr, DecidableEq

/-- One entry of the `horizon_details` dict built by `decide_play`. -/
structure HorizonDetail where
  median_wind_m_s : ℚ
  q90_wind_m_s : ℚ
  passes : Bool
  violations : List String
  prob_over_3m_s : Option ℚ
  deriving Repr, DecidableEq

/-- The result dict of `decide_play` (the fields the claims are about:
the `decision` string and the per-horizon `details`). -/
structure DecisionResult where
  decision : String
  details : List (String × HorizonDetail)
  deriving Repr, DecidableEq

/-- Python dict lookup `d[k]` on an association list (keys are unique in a
Python dict, so first match is the match). -/
def lookup (l : List (String × ℚ)) (k : String) : Option ℚ :=
  (l.find? (fun p => p.1 == k)).map (fun p => p.2)

/-- The effective probability threshold: `play_thresholds.get("prob_over_3m_s_max", 1.0)`. -/
def probMax (play : PlaySection) : ℚ :=
  play.prob_over_3m_s_max.getD 1

/-- The per-horizon probability check input of `decide_play`: present only
when a probability dict was supplied (`prob_over_threshold is not None`)
and it holds the horizon key (`horizon_key in prob_over_threshold`). -/
def probEntry (prob_over_threshold : Option (List (String × ℚ))) (k : String) :
    Option ℚ :=
  match prob_over_threshold with
  | some probs => lookup probs k
  | none => none

/-- The violation tags recorded for one horizon of `decide_play`, in the
order the three checks run: median, q90, probability (the probability is
checked only when a probability dict was supplied and holds the key). -/
def horizonViolations (play : PlaySection) (medianWind q90Wind : ℚ)
    (probEntry : Option ℚ) : List String :=
  (if medianWind > play.median_max_m_s then ["median_too_high"] else []) ++
    (if q90Wind > play.q90_max_m_s then ["q90_too_high"] else []) ++
      (match probEntry with
       | some p => if p > probMax play then ["prob_too_high"] else []
       | none => [])

/-- The loop body of `decide_play` over the keys of `median_forecast`:
returns the accumulated global violation tags and the `horizon_details`
entries, or a `KeyError` when a key of `median_forecast` is absent from
`q90_forecast`. -/
def checkHorizons (play : PlaySection) (q90_forecast : List (String × ℚ))
    (prob_over_threshold : Option (List (String × ℚ))) :
    List (String × ℚ) → Except String (List String × List (String × HorizonDetail))
  | [] => .ok ([], [])
  | (horizonKey, medianWind) :: rest =>
    match lookup q90_forecast horizonKey with
    | none => .error "KeyError"
    | some q90Wind =>
      let horizon := horizonKey.replace "horizon_" ""
      let pe := probEntry prob_over_threshold horizonKey
      let vios := horizonViolations play medianWind q90Wind pe
      match checkHorizons play q90_forecast prob_over_threshold rest with
      | .error e => .error e
      | .ok (restVios, restDetails) =>
        .ok (vios ++ restVios,
          (horizon, ⟨medianWind, q90Wind, vios.isEmpty, vios, pe⟩) :: restDetails)

/-- `decide_play` from src/decision/rules.py: the decision is `PLAY` when
no violation was recorded over all horizons of `median_forecast`, and
`DON'T PLAY` otherwise. -/
def decide_play (median_forecast q90_forecast : List (String × ℚ))
    (play : PlaySection) (prob_over_threshold : Option (List (String × ℚ))) :
    Except String DecisionResult :=
  match checkHorizons play q90_forecast prob_over_threshold median_forecast with
  | .error e => .error e
  | .ok (violations, details) =>
    .ok ⟨if violations.isEmpty then "PLAY" else "DON\x27T PLAY", details⟩

/-- The spec-side pass condition for one entry `(key, median)` of
`median_forecast`: median within threshold, the q90 value stored under the
same key within threshold, and, when an exceedance probability is supplied
for the key, that probability within threshold. -/
def entryPasses (play : PlaySection) (q90_forecast : List (String × ℚ))
    (prob_over_threshold : Option (List (String × ℚ))) (e : String × ℚ) : Prop :=
  e.2 ≤ play.median_max_m_s ∧
    (∀ qv, lookup q90_forecast e.1 = some qv → qv ≤ play.q90_max_m_s) ∧
      (∀ p, probEntry prob_over_threshold e.1 = some p → p ≤ probMax play)

/-! ## Configuration constants (src/config.py) -/

/-- `LAG_HOURS` from src/config.py. -/
def LAG_HOURS : List ℕ := [1, 2, 3, 6, 12, 24]

/-- `MAX_GAP_FILL_HOURS` from src/config.py. -/
def MAX_GAP_FILL_HOURS : ℕ := 3

/-- `HORIZONS` from src/config.py. -/
def HORIZONS : List ℕ := [1, 3, 6]

/-- `SEQUENCE_LENGTH` from src/config.py. -/
def SEQUENCE_LENGTH : ℕ := 24

/-- The dict key `f"horizon_{h}h"` used by both forecasters. -/
def horizonKey (h : ℕ) : String := s!"horizon_{h}h"

/-! ## Quantiles (src/models/quantiles.py) -/

/-- `np.percentile(xs, q)` with the default linear interpolation method:
sort ascending, take the fractional rank `q/100 * (n-1)` and linearly
interpolate between the two neighbouring order statistics. -/
def percentile (xs : List ℚ) (q : ℚ) : ℚ :=
  let s := xs.insertionSort (fun a b => a ≤ b)
  let r := q * ((s.length : ℚ) - 1) / 100
  let i := (⌊r⌋).toNat
  let lo := s.getD i 0
  let hi := s.getD (i + 1) lo
  lo + (r - (i : ℚ)) * (hi - lo)

/-- `compute_q90` from src/models/quantiles.py.  The boolean records
whether the fallback branch ran (the code emits `logger.warning` there and
nowhere else in this function). `residuals = none` models passing
`residuals=None`.  The guard is `residuals is not None and len(residuals) > 0`. -/
def compute_q90 (predictions : List ℚ) (residuals : Option (List ℚ)) :
    List ℚ × Bool :=
  match residuals with
  | some rs =>
    if rs.length > 0 then
      let q90_residual := percentile (rs.map (fun x => |x|)) 90
      (predictions.map (fun p => p + q90_residual), false)
    else
      (predictions.map (fun p => p * 1.2), true)
  | none => (predictions.map (fun p => p * 1.2), true)

/-! ## Persistence baseline (src/models/baseline.py)

The input DataFrame is modelled by its target column (`df[TARGET_COLUMN]`),
a list of observed wind speeds in time order. -/

/-- `PersistenceModel.predict_latest`: raises on an empty input, otherwise
replicates the last target value (`df[TARGET_COLUMN].iloc[-1]`) across
every configured horizon. -/
def PersistenceModel.predict_latest (horizons : List ℕ) (target : List ℚ) :
    Except String (List (String × ℚ)) :=
  if target.isEmpty then .error "Input DataFrame is empty"
  else .ok (horizons.map (fun h => (horizonKey h, target.getLastD 0)))

/-! ## Preprocessing (src/data/preprocess.py)

A numeric column with missing values (NaNs) is a `List (Option ℚ)` indexed
by row position; after `resample_to_hourly` row positions are consecutive
hours, which is exactly the spacing `interpolate(method="linear")` assumes
(pandas documents `method="linear"` as ignoring the index and treating the
values as equally spaced). -/

/-- Index of the nearest non-missing value strictly before position `t`
(the left anchor pandas interpolation uses), if any. -/
def prevValidIdx (xs : List (Option ℚ)) (t : ℕ) : Option ℕ :=
  ((List.range t).filter (fun j => (xs.getD j none).isSome)).getLast?

/-- Index of the nearest non-missing value strictly after position `t`
(the right anchor pandas interpolation uses), if any. -/
def nextValidIdx (xs : List (Option ℚ)) (t : ℕ) : Option ℕ :=
  ((List.range xs.length).filter
    (fun j => decide (t < j) && (xs.getD j none).isSome)).head?

/-- One position of `Series.interpolate(method="linear", limit=limit,
limit_area="inside")`: a present value is kept; a missing position `t` is
filled with the linear interpolation between its nearest present
neighbours `a < t < b` (so only interior gaps fill — `limit_area="inside"`)
provided at most `limit` consecutive NaNs have been filled before it in
the forward direction, i.e. `t - a ≤ limit`; otherwise it stays missing. -/
def interpAt (xs : List (Option ℚ)) (limit t : ℕ) : Option ℚ :=
  match xs.getD t none with
  | some v => some v
  | none =>
    match prevValidIdx xs t, nextValidIdx xs t with
    | some a, some b =>
      match xs.getD a none, xs.getD b none with
      | some va, some vb =>
        if t - a ≤ limit then
          some (va + ((t : ℚ) - (a : ℚ)) / ((b : ℚ) - (a : ℚ)) * (vb - va))
        else none
      | _, _ => none
    | _, _ => none

/-- `fill_small_gaps` from src/data/preprocess.py:
`df.interpolate(method="linear", limit=max_gap_hours, limit_area="inside")`
applied to one column. -/
def fill_small_gaps (xs : List (Option ℚ)) (max_gap_hours : ℕ) :
    List (Option ℚ) :=
  (List.range xs.length).map (interpAt xs max_gap_hours)

/-! ### Hourly resampling

A raw table row is a timestamp (in minutes) together with its numeric
column values; `df.resample("1H").mean()` groups rows into hour buckets
`t / 60`, emits every bucket between the earliest and the latest one, and
averages each column over the non-missing values that fall in the bucket
(an empty bucket or all-missing column yields NaN).  pandas sorts a
non-monotonic index itself (`Grouper._set_grouper`), so ordering of the
input rows does not matter. -/

/-- Mean of the non-missing values of one column restricted to a bucket
(`NaN`-skipping mean, as `DataFrame.mean` does). -/
def colMean (vals : List (Option ℚ)) : Option ℚ :=
  let vs := vals.filterMap id
  if vs.isEmpty then none else some (vs.sum / (vs.length : ℚ))

/-- The rows of the table whose timestamp falls in hour bucket `b`. -/
def bucketRows (rows : List (ℕ × List (Option ℚ))) (b : ℕ) :
    List (List (Option ℚ)) :=
  (rows.filter (fun r => r.1 / 60 == b)).map (fun r => r.2)

/-- Columnwise `NaN`-skipping mean over a set of rows with `ncols` columns. -/
def rowMean (rs : List (List (Option ℚ))) (ncols : ℕ) : List (Option ℚ) :=
  (List.range ncols).map (fun j => colMean (rs.map (fun r => r.getD j none)))

/-- `resample_to_hourly` from src/data/preprocess.py: raises iff the index
is not a `DatetimeIndex` (`isDatetimeIndex = false`); otherwise returns
one row per hour bucket from the earliest to the latest observed bucket,
holding the columnwise means. -/
def resample_to_hourly (isDatetimeIndex : Bool) (ncols : ℕ)
    (rows : List (ℕ × List (Option ℚ))) :
    Except String (List (ℕ × List (Option ℚ))) :=
  if isDatetimeIndex = false then .error "DataFrame must have a DatetimeIndex"
  else
    match rows.map (fun r => r.1 / 60) with
    | [] => .ok []
    | b :: bs =>
      let minB := bs.foldl min b
      let maxB := bs.foldl max b
      .ok ((List.range (maxB + 1 - minB)).map
        (fun i => (minB + i, rowMean (bucketRows rows (minB + i)) ncols)))

/-! ### Feature construction (build_features)

The claims about `build_features` concern the target column and its lag
columns, the only columns in the final `dropna` subsets (steps 4–6 add
cyclical, pressure-tendency and wind-component columns, none of which is
in a `dropna` subset).  The pipeline is therefore modelled on the target
column: gap-fill it (step 2), attach one lag column per configured lag
(`df[col].shift(lag)`, step 3), then drop every row with a missing target
or a missing lag value (the two `dropna` calls). -/

/-- One output row of `build_features`, restricted to the columns the
`dropna` subsets mention: the target value and one value per lag column. -/
structure FeatureRow where
  rowIdx : ℕ
  target : Option ℚ
  lagCols : List (ℕ × Option ℚ)
  deriving Repr, DecidableEq

/-- `df[column].shift(lag)` at row `t`: the series value at `t - lag`,
missing for the first `lag` rows. -/
def lagValue (series : List (Option ℚ)) (lag t : ℕ) : Option ℚ :=
  if lag ≤ t then series.getD (t - lag) none else none

/-- The row of the feature table at position `t` before any dropping. -/
def makeFeatureRow (series : List (Option ℚ)) (lags : List ℕ) (t : ℕ) :
    FeatureRow :=
  ⟨t, series.getD t none, lags.map (fun lag => (lag, lagValue series lag t))⟩

/-- `build_features` (steps 2, 3 and the final row pruning) on the target
column of an hourly table: fill small gaps, build the lag columns, and
drop the rows with a missing target (`dropna(subset=[TARGET_COLUMN])`) or
a missing lag value (`dropna(subset=lag_cols)`). -/
def build_features (lags : List ℕ) (max_gap_hours : ℕ)
    (raw : List (Option ℚ)) : List FeatureRow :=
  let series := fill_small_gaps raw max_gap_hours
  ((List.range series.length).map (makeFeatureRow series lags)).filter
    (fun r => r.target.isSome && r.lagCols.all (fun p => p.2.isSome))

/-! ## Sequence forecaster (src/models/lstm_model.py)

The feature matrix is a function `X` from row position to the feature
vector and the target column a function `y` from row position to value;
`nrows` is `len(df)`.  The trained network and the feature scaler do not
affect window construction or the error paths, so the network is abstracted
as a function `model` from an input window and a horizon to a predicted
value. -/

/-- Python's built-in `max`, which raises on an empty sequence. -/
def pyMax : List ℕ → Option ℕ
  | [] => none
  | h :: t => some (t.foldl max h)

namespace LSTMForecaster

/-- `LSTMForecaster._create_sequences`: `n_samples = len(df) -
sequence_length - max(horizons)` (a negative `n_samples` makes `np.zeros`
raise), window `i` holds rows `i .. i + sequence_length - 1`, and the
target of window `i` at horizon `h` is `y_values[i + sequence_length + h - 1]`. -/
def createSequences (sequence_length : ℕ) (horizons : List ℕ)
    (X : ℕ → List ℚ) (y : ℕ → ℚ) (nrows : ℕ) :
    Except String (List (List (List ℚ)) × List (ℕ × List ℚ)) :=
  match pyMax horizons with
  | none => .error "max() arg is an empty sequence"
  | some maxH =>
    if nrows < sequence_length + maxH then
      .error "negative dimensions are not allowed"
    else
      let n := nrows - sequence_length - maxH
      .ok ((List.range n).map
            (fun i => (List.range sequence_length).map (fun j => X (i + j))),
        horizons.map
          (fun h => (h, (List.range n).map
            (fun i => y (i + sequence_length + h - 1)))))

/-- `LSTMForecaster.predict`: build the sequences, raise the
data-sufficiency `ValueError` when no sequence could be built, otherwise
return one prediction list per horizon (one value per window). -/
def predict (model : List (List ℚ) → ℕ → ℚ) (sequence_length : ℕ)
    (horizons : List ℕ) (X : ℕ → List ℚ) (y : ℕ → ℚ) (nrows : ℕ) :
    Except String (List (ℕ × List ℚ)) :=
  match createSequences sequence_length horizons X y nrows with
  | .error e => .error e
  | .ok (xseq, _) =>
    if xseq.length = 0 then .error "Not enough data to create sequences"
    else .ok (horizons.map (fun h => (h, xseq.map (fun w => model w h))))

/-- `LSTMForecaster.predict_latest`: guard `len(df) < sequence_length`,
then take the last prediction of each horizon returned by `predict`. -/
def predict_latest (model : List (List ℚ) → ℕ → ℚ) (sequence_length : ℕ)
    (horizons : List ℕ) (X : ℕ → List ℚ) (y : ℕ → ℚ) (nrows : ℕ) :
    Except String (List (String × ℚ)) :=
  if nrows < sequence_length then
    .error "Need at least sequence_length samples for prediction"
  else
    match predict model sequence_length horizons X y nrows with
    | .error e => .error e
    | .ok preds => .ok (preds.map (fun p => (horizonKey p.1, p.2.getLastD 0)))

end LSTMForecaster

/-! ## Metrics (src/eval/metrics.py) -/

/-- `skill_score` from src/eval/metrics.py: `1 - mae_model / mae_baseline`,
guarded to `0.0` when the baseline MAE is zero. -/
def skill_score (mae_model mae_baseline : ℚ) : ℚ :=
  if mae_baseline = 0 then 0 else 1 - mae_model / mae_baseline

/-! ## Helper lemmas -/

/-- `getD` of a map over `List.range` evaluates pointwise below the bound. -/
lemma getD_map_range {α : Type} (f : ℕ → α) (n i : ℕ) (d : α) (hi : i < n) :
    ((List.range n).map f).getD i d = f i := by
  simp [List.getD_eq_getElem?_getD, List.getElem?_map, List.getElem?_range hi]

/-- Projecting the keys back out of a key-value tabulation. -/
lemma map_fst_pair {α β : Type} (l : List α) (f : α → β) :
    (l.map (fun a => (a, f a))).map Prod.fst = l := by
  induction l with
  | nil => rfl
  | cons a t ih => simp only [List.map_cons, ih]

/-- A left fold with `min` is a lower bound of its seed and its inputs. -/
lemma foldl_min_le (l : List ℕ) (b : ℕ) :
    l.foldl min b ≤ b ∧ ∀ a ∈ l, l.foldl min b ≤ a := by
  induction l generalizing b with
  | nil => exact ⟨le_refl b, by simp⟩
  | cons c t ih =>
    rw [List.foldl_cons]
    obtain ⟨h1, h2⟩ := ih (min b c)
    refine ⟨le_trans h1 (min_le_left _ _), fun a ha => ?_⟩
    rcases List.mem_cons.mp ha with rfl | ha
    · exact le_trans h1 (min_le_right _ _)
    · exact h2 a ha

/-- A left fold with `max` is an upper bound of its seed and its inputs. -/
lemma le_foldl_max (l : List ℕ) (b : ℕ) :
    b ≤ l.foldl max b ∧ ∀ a ∈ l, a ≤ l.foldl max b := by
  induction l generalizing b with
  | nil => exact ⟨le_refl b, by simp⟩
  | cons c t ih =>
    rw [List.foldl_cons]
    obtain ⟨h1, h2⟩ := ih (max b c)
    refine ⟨le_trans (le_max_left _ _) h1, fun a ha => ?_⟩
    rcases List.mem_cons.mp ha with rfl | ha
    · exact le_trans (le_max_right _ _) h1
    · exact h2 a ha

/-- `getD` of a mapped list evaluates pointwise below the length bound. -/
lemma getD_map {α β : Type} (f : α → β) (l : List α) (i : ℕ) (d : α) (d' : β)
    (hi : i < l.length) : (l.map f).getD i d' = f (l.getD i d) := by
  rw [List.getD_eq_getElem?_getD, List.getElem?_map,
    List.getD_eq_getElem?_getD, List.getElem?_eq_getElem hi]
  rfl

/-- The three checks of one horizon record no violation tag exactly when
the horizon's median, q90 and (when supplied) exceedance probability are
all within their thresholds. -/
lemma horizonViolations_eq_nil (play : PlaySection) (m qv : ℚ) (pe : Option ℚ) :
    horizonViolations play m qv pe = [] ↔
      (m ≤ play.median_max_m_s ∧ qv ≤ play.q90_max_m_s ∧
        ∀ p, pe = some p → p ≤ probMax play) := by
  cases pe with
  | none => simp [horizonViolations, List.append_eq_nil, not_lt]
  | some p => simp [horizonViolations, List.append_eq_nil, not_lt]

/-- When every key of `median_forecast` is present in `q90_forecast`, the
horizon loop of `decide_play` succeeds, and the global violation list is
empty exactly when every entry passes all applicable thresholds. -/
lemma checkHorizons_ok (play : PlaySection) (q90F : List (String × ℚ))
    (probOver : Option (List (String × ℚ))) (median : List (String × ℚ))
    (hq : ∀ e ∈ median, (lookup q90F e.1).isSome) :
    ∃ vios details, checkHorizons play q90F probOver median = .ok (vios, details) ∧
      (vios = [] ↔ ∀ e ∈ median, entryPasses play q90F probOver e) := by
  induction median with
  | nil => exact ⟨[], [], rfl, by simp⟩
  | cons e rest ih =>
    obtain ⟨qv, hqv⟩ := Option.isSome_iff_exists.mp (hq e (by simp))
    obtain ⟨vios, details, hok, hiff⟩ := ih (fun x hx => hq x (by simp [hx]))
    obtain ⟨k, m⟩ := e
    refine ⟨horizonViolations play m qv (probEntry probOver k) ++ vios,
      (k.replace "horizon_" "",
        ⟨m, qv, (horizonViolations play m qv (probEntry probOver k)).isEmpty,
          horizonViolations play m qv (probEntry probOver k),
          probEntry probOver k⟩) :: details, ?_, ?_⟩
    · simp only [checkHorizons, hqv, hok]
    · rw [List.append_eq_nil]
      constructor
      · rintro ⟨h1, h2⟩ x hx
        rcases List.mem_cons.mp hx with rfl | hx
        · obtain ⟨hm, hq90, hp⟩ := (horizonViolations_eq_nil play m qv _).mp h1
          refine ⟨hm, fun qv' hqv' => ?_, hp⟩
          rw [hqv] at hqv'
          cases hqv'
          exact hq90
        · exact hiff.mp h2 x hx
      · intro hall
        constructor
        · apply (horizonViolations_eq_nil play m qv _).mpr
          obtain ⟨hm, hq90, hp⟩ := hall (k, m) (by simp)
          exact ⟨hm, hq90 qv hqv, hp⟩
        · exact hiff.mpr fun x hx => hall x (by simp [hx])

/-! ## Theorems -/

/-- C1: provided every horizon key of `median_forecast` is present in
`q90_forecast` (otherwise the Python code raises a `KeyError`),
`decide_play` succeeds and returns decision `PLAY` iff every horizon of
`median_forecast` has median ≤ `median_max_m_s`, q90 ≤ `q90_max_m_s` and,
when an exceedance probability is supplied for it, probability ≤
`prob_over_3m_s_max`; as soon as any single horizon violates one of its
thresholds the decision is `DON'T PLAY`. -/
theorem decide_play_play_iff (median_forecast q90_forecast : List (String × ℚ))
    (play : PlaySection) (prob_over_threshold : Option (List (String × ℚ)))
    (hq : ∀ e ∈ median_forecast, (lookup q90_forecast e.1).isSome) :
    ∃ r, decide_play median_forecast q90_forecast play prob_over_threshold = .ok r ∧
      (r.decision = "PLAY" ↔
        ∀ e ∈ median_forecast, entryPasses play q90_forecast prob_over_threshold e) ∧
      ((∃ e ∈ median_forecast,
          ¬ entryPasses play q90_forecast prob_over_threshold e) →
        r.decision = "DON\x27T PLAY") := by
  obtain ⟨vios, details, hok, hiff⟩ :=
    checkHorizons_ok play q90_forecast prob_over_threshold median_forecast hq
  refine ⟨⟨if vios.isEmpty then "PLAY" else "DON\x27T PLAY", details⟩, ?_, ?_, ?_⟩
  · rw [decide_play, hok]
  · by_cases hv : vios = []
    · subst hv
      exact iff_of_true rfl (hiff.mp rfl)
    · have hfalse : vios.isEmpty = false := by
        simpa [List.isEmpty_iff] using hv
      simp only [hfalse, Bool.false_eq_true, if_false]
      constructor
      · intro h
        exact absurd h (by decide)
      · intro hall
        exact absurd (hiff.mpr hall) hv
  · rintro ⟨e, he, hne⟩
    have hv : vios ≠ [] := fun h => hne (hiff.mp h e he)
    simp [List.isEmpty_iff, hv]

/-- Witness for C1 on the single-horizon forecast `median = {horizon_1h: 2}`,
`q90 = {horizon_1h: 3}` with the default thresholds. -/
theorem decide_play_play_iff_witness :
    (∀ e ∈ [("horizon_1h", (2 : ℚ))],
        (lookup [("horizon_1h", (3 : ℚ))] e.1).isSome) ∧
      ∃ r, decide_play [("horizon_1h", (2 : ℚ))] [("horizon_1h", (3 : ℚ))]
          ⟨333/100, 5, some (1/10)⟩ none = .ok r ∧
        (r.decision = "PLAY" ↔
          ∀ e ∈ [("horizon_1h", (2 : ℚ))],
            entryPasses ⟨333/100, 5, some (1/10)⟩ [("horizon_1h", (3 : ℚ))] none e) ∧
        ((∃ e ∈ [("horizon_1h", (2 : ℚ))],
            ¬ entryPasses ⟨333/100, 5, some (1/10)⟩ [("horizon_1h", (3 : ℚ))] none e) →
          r.decision = "DON\x27T PLAY") :=
  ⟨by decide, decide_play_play_iff _ _ _ _ (by decide)⟩

/-- C4: with a non-empty horizon set of maximum `maxH` and at least
`sequence_length + maxH` rows, `_create_sequences` builds exactly
`nrows - sequence_length - maxH` overlapping windows, and the training
target of window `i` at horizon `h` is the target value at row
`i + sequence_length + h - 1` (horizons are hours ≥ 1; the subtraction is
exact there). -/
theorem createSequences_spec (sequence_length : ℕ) (horizons : List ℕ)
    (X : ℕ → List ℚ) (y : ℕ → ℚ) (nrows maxH : ℕ)
    (hmax : pyMax horizons = some maxH) (hN : sequence_length + maxH ≤ nrows) :
    ∃ Xs ys,
      LSTMForecaster.createSequences sequence_length horizons X y nrows =
        .ok (Xs, ys) ∧
      Xs.length = nrows - sequence_length - maxH ∧
      ys.map Prod.fst = horizons ∧
      ∀ hts ∈ ys, hts.2.length = nrows - sequence_length - maxH ∧
        ∀ i < nrows - sequence_length - maxH,
          hts.2.getD i 0 = y (i + sequence_length + hts.1 - 1) := by
  refine ⟨(List.range (nrows - sequence_length - maxH)).map
      (fun i => (List.range sequence_length).map (fun j => X (i + j))),
    horizons.map (fun h => (h, (List.range (nrows - sequence_length - maxH)).map
      (fun i => y (i + sequence_length + h - 1)))), ?_, by simp,
    map_fst_pair horizons _, ?_⟩
  · simp only [LSTMForecaster.createSequences, hmax, if_neg (not_lt.mpr hN)]
  · intro hts hmem
    obtain ⟨h, _, rfl⟩ := List.mem_map.mp hmem
    refine ⟨by simp, fun i hi => ?_⟩
    exact getD_map_range _ _ i 0 hi

/-- Witness for C4 with `sequence_length = 2`, horizons `[1, 3]`, 6 rows
and the identity target series. -/
theorem createSequences_spec_witness :
    pyMax [1, 3] = some 3 ∧ 2 + 3 ≤ 6 ∧
      ∃ Xs ys,
        LSTMForecaster.createSequences 2 [1, 3] (fun i => [(i : ℚ)])
            (fun i => (i : ℚ)) 6 = .ok (Xs, ys) ∧
        Xs.length = 6 - 2 - 3 ∧
        ys.map Prod.fst = [1, 3] ∧
        ∀ hts ∈ ys, hts.2.length = 6 - 2 - 3 ∧
          ∀ i < 6 - 2 - 3, hts.2.getD i 0 = ((i + 2 + hts.1 - 1 : ℕ) : ℚ) :=
  ⟨rfl, by decide,
    createSequences_spec 2 [1, 3] (fun i => [(i : ℚ)]) (fun i => (i : ℚ)) 6 3 rfl (by decide)⟩

/-- C5: every row returned by `build_features` has a present (non-null)
target value, every one of its lag columns is present, and it carries a
lag column for every configured lag. -/
theorem build_features_no_missing (lags : List ℕ) (max_gap_hours : ℕ)
    (raw : List (Option ℚ)) (r : FeatureRow)
    (hr : r ∈ build_features lags max_gap_hours raw) :
    r.target.isSome ∧ (∀ p ∈ r.lagCols, p.2.isSome) ∧
      ∀ L ∈ lags, ∃ v, (L, some v) ∈ r.lagCols := by
  obtain ⟨hmem, hcond⟩ := List.mem_filter.mp hr
  rw [Bool.and_eq_true] at hcond
  obtain ⟨ht, hall⟩ := hcond
  rw [List.all_eq_true] at hall
  refine ⟨ht, fun p hp => hall p hp, ?_⟩
  obtain ⟨t, _, rfl⟩ := List.mem_map.mp hmem
  intro L hL
  have hmem2 : (L, lagValue (fill_small_gaps raw max_gap_hours) L t) ∈
      (makeFeatureRow (fill_small_gaps raw max_gap_hours) lags t).lagCols :=
    List.mem_map.mpr ⟨L, hL, rfl⟩
  obtain ⟨v, hv⟩ := Option.isSome_iff_exists.mp (hall _ hmem2)
  exact ⟨v, hv ▸ hmem2⟩

/-- Witness for C5: the second row of `build_features` over the two-row
series `[1, 2]` with the single lag 1 survives the pruning. -/
theorem build_features_no_missing_witness :
    (⟨1, some 2, [(1, some 1)]⟩ : FeatureRow) ∈ build_features [1] 3 [some 1, some 2] ∧
      ((⟨1, some 2, [(1, some 1)]⟩ : FeatureRow).target.isSome ∧
        (∀ p ∈ (⟨1, some 2, [(1, some 1)]⟩ : FeatureRow).lagCols, p.2.isSome) ∧
        ∀ L ∈ [1], ∃ v, (L, some v) ∈ (⟨1, some 2, [(1, some 1)]⟩ : FeatureRow).lagCols) :=
  ⟨by decide, build_features_no_missing [1] 3 [some 1, some 2] _ (by decide)⟩

/-- C8 counterexample: with `sequence_length = 1` and horizons `[1]`, an
input of exactly `sequence_length + max(horizons) = 2` rows — which the
claim says is enough for no error — still raises the data-sufficiency
error, because `n_samples = 2 - 1 - 1 = 0` windows are built. -/
theorem predict_boundary_counterexample :
    pyMax [1] = some 1 ∧ 1 + 1 ≤ 2 ∧
      LSTMForecaster.predict (fun _ _ => 0) 1 [1] (fun _ => [0]) (fun _ => 0) 2 =
        .error "Not enough data to create sequences" :=
  ⟨rfl, by decide, rfl⟩

/-- C8 amended: `predict` and `predict_latest` raise an error (the
`np.zeros` negative-dimension error below `sequence_length + max(horizons)`
rows, the data-sufficiency error at exactly that many) if and only if the
input has at most `sequence_length + max(horizons)` rows; with at least
`sequence_length + max(horizons) + 1` rows no error is raised. -/
theorem predict_error_iff (model : List (List ℚ) → ℕ → ℚ)
    (sequence_length : ℕ) (horizons : List ℕ) (X : ℕ → List ℚ) (y : ℕ → ℚ)
    (nrows maxH : ℕ) (hmax : pyMax horizons = some maxH) :
    ((∃ e, LSTMForecaster.predict model sequence_length horizons X y nrows =
        .error e) ↔ nrows ≤ sequence_length + maxH) ∧
    ((∃ e, LSTMForecaster.predict_latest model sequence_length horizons X y nrows =
        .error e) ↔ nrows ≤ sequence_length + maxH) := by
  rcases Nat.lt_or_ge nrows (sequence_length + maxH) with hlt | hge
  · have hc : LSTMForecaster.createSequences sequence_length horizons X y nrows =
        .error "negative dimensions are not allowed" := by
      simp only [LSTMForecaster.createSequences, hmax, if_pos hlt]
    have hpred : LSTMForecaster.predict model sequence_length horizons X y nrows =
        .error "negative dimensions are not allowed" := by
      simp only [LSTMForecaster.predict, hc]
    have hlat : ∃ e, LSTMForecaster.predict_latest model sequence_length horizons
        X y nrows = .error e := by
      by_cases hsl : nrows < sequence_length
      · exact ⟨"Need at least sequence_length samples for prediction",
          by simp only [LSTMForecaster.predict_latest, if_pos hsl]⟩
      · exact ⟨"negative dimensions are not allowed",
          by simp only [LSTMForecaster.predict_latest, if_neg hsl, hpred]⟩
    exact ⟨⟨fun _ => hlt.le, fun _ => ⟨_, hpred⟩⟩, ⟨fun _ => hlt.le, fun _ => hlat⟩⟩
  · rcases Nat.eq_or_lt_of_le hge with heq | hgt
    · have hzero : nrows - sequence_length - maxH = 0 := by omega
      have hc : LSTMForecaster.createSequences sequence_length horizons X y nrows =
          .ok ([], horizons.map (fun h => (h, []))) := by
        simp only [LSTMForecaster.createSequences, hmax, if_neg (not_lt.mpr hge),
          hzero, List.range_zero, List.map_nil]
      have hpred : LSTMForecaster.predict model sequence_length horizons X y nrows =
          .error "Not enough data to create sequences" := by
        simp [LSTMForecaster.predict, hc]
      have hlat : ∃ e, LSTMForecaster.predict_latest model sequence_length horizons
          X y nrows = .error e := by
        by_cases hsl : nrows < sequence_length
        · exact ⟨"Need at least sequence_length samples for prediction",
            by simp only [LSTMForecaster.predict_latest, if_pos hsl]⟩
        · exact ⟨"Not enough data to create sequences",
            by simp only [LSTMForecaster.predict_latest, if_neg hsl, hpred]⟩
      have hle : nrows ≤ sequence_length + maxH := by omega
      exact ⟨⟨fun _ => hle, fun _ => ⟨_, hpred⟩⟩, ⟨fun _ => hle, fun _ => hlat⟩⟩
    · have hc : LSTMForecaster.createSequences sequence_length horizons X y nrows =
          .ok ((List.range (nrows - sequence_length - maxH)).map
              (fun i => (List.range sequence_length).map (fun j => X (i + j))),
            horizons.map (fun h => (h, (List.range (nrows - sequence_length - maxH)).map
              (fun i => y (i + sequence_length + h - 1))))) := by
        simp only [LSTMForecaster.createSequences, hmax, if_neg (not_lt.mpr hge)]
      have hlen : ¬ ((List.range (nrows - sequence_length - maxH)).map
          (fun i => (List.range sequence_length).map (fun j => X (i + j)))).length = 0 := by
        simp only [List.length_map, List.length_range]
        omega
      have hpred : LSTMForecaster.predict model sequence_length horizons X y nrows =
          .ok (horizons.map (fun h => (h,
            ((List.range (nrows - sequence_length - maxH)).map
              (fun i => (List.range sequence_length).map (fun j => X (i + j)))).map
                (fun w => model w h)))) := by
        simp only [LSTMForecaster.predict, hc, if_neg hlen]
      have hsl : ¬ nrows < sequence_length := by omega
      have hnle : ¬ nrows ≤ sequence_length + maxH := by omega
      constructor
      · refine ⟨fun he => ?_, fun hle => absurd hle hnle⟩
        obtain ⟨e, he⟩ := he
        rw [hpred] at he
        exact Except.noConfusion he
      · refine ⟨fun he => ?_, fun hle => absurd hle hnle⟩
        obtain ⟨e, he⟩ := he
        rw [LSTMForecaster.predict_latest, if_neg hsl, hpred] at he
        exact Except.noConfusion he

/-- Witness for C8's amended claim with `sequence_length = 2`, horizons
`[1, 3]` and 10 rows. -/
theorem predict_error_iff_witness :
    pyMax [1, 3] = some 3 ∧
      (((∃ e, LSTMForecaster.predict (fun _ _ => 0) 2 [1, 3] (fun _ => [])
          (fun _ => 0) 10 = .error e) ↔ 10 ≤ 2 + 3) ∧
        ((∃ e, LSTMForecaster.predict_latest (fun _ _ => 0) 2 [1, 3] (fun _ => [])
          (fun _ => 0) 10 = .error e) ↔ 10 ≤ 2 + 3)) :=
  ⟨rfl, predict_error_iff (fun _ _ => 0) 2 [1, 3] (fun _ => []) (fun _ => 0) 10 3 rfl⟩

/-- C9 counterexample: a table whose datetime index is not strictly
time-ordered (timestamps 120 min, 0 min, 125 min) does not raise; it is
resampled normally — pandas sorts a non-monotonic index inside `resample`
— yielding hour buckets 0, 1 (empty) and 2 with the mean 3 of the two
values 2 and 4 falling in bucket 2.  The code checks only the index type,
never the ordering. -/
theorem resample_unsorted_counterexample :
    ¬ List.Chain' (fun a b => a < b) [120, 0, 125] ∧
      resample_to_hourly true 1 [(120, [some 2]), (0, [some 4]), (125, [some 4])] =
        .ok [(0, [some 4]), (1, [none]), (2, [some 3])] := by
  constructor
  · norm_num [List.chain'_cons]
  · norm_num [resample_to_hourly, bucketRows, rowMean, colMean, List.range_succ,
      List.filter_cons, List.filter_nil, List.filterMap_cons, List.filterMap_nil,
      Function.comp]

/-- C9 amended: `resample_to_hourly` raises an error iff the index is not
a `DatetimeIndex`; the ordering of the index is never checked.  On a
datetime-typed index (ordered or not) it succeeds, every output bucket's
column value is the mean of the non-missing values of the input rows whose
timestamp falls in that hour bucket, and every input row's bucket appears
in the output. -/
theorem resample_to_hourly_spec (isDatetimeIndex : Bool) (ncols : ℕ)
    (rows : List (ℕ × List (Option ℚ))) :
    ((∃ e, resample_to_hourly isDatetimeIndex ncols rows = .error e) ↔
      isDatetimeIndex = false) ∧
    (isDatetimeIndex = true →
      ∃ out, resample_to_hourly true ncols rows = .ok out ∧
        (∀ bv ∈ out, ∀ j < ncols,
          bv.2.getD j none =
            colMean ((rows.filter (fun r => r.1 / 60 == bv.1)).map
              (fun r => r.2.getD j none))) ∧
        ∀ r ∈ rows, ∃ bv, bv ∈ out ∧ bv.1 = r.1 / 60) := by
  cases isDatetimeIndex with
  | false =>
    exact ⟨⟨fun _ => rfl, fun _ => ⟨"DataFrame must have a DatetimeIndex", rfl⟩⟩,
      fun h => absurd h (by decide)⟩
  | true =>
    have hmain : ∃ out, resample_to_hourly true ncols rows = .ok out ∧
        (∀ bv ∈ out, ∀ j < ncols,
          bv.2.getD j none =
            colMean ((rows.filter (fun r => r.1 / 60 == bv.1)).map
              (fun r => r.2.getD j none))) ∧
        ∀ r ∈ rows, ∃ bv, bv ∈ out ∧ bv.1 = r.1 / 60 := by
      cases rows with
      | nil => exact ⟨[], rfl, by simp, by simp⟩
      | cons r0 rest =>
        refine ⟨(List.range ((rest.map (fun x => x.1 / 60)).foldl max (r0.1 / 60) + 1 -
              (rest.map (fun x => x.1 / 60)).foldl min (r0.1 / 60))).map
            (fun i => ((rest.map (fun x => x.1 / 60)).foldl min (r0.1 / 60) + i,
              rowMean (bucketRows (r0 :: rest)
                ((rest.map (fun x => x.1 / 60)).foldl min (r0.1 / 60) + i)) ncols)),
          ?_, ?_, ?_⟩
        · simp only [resample_to_hourly, if_neg (by decide : ¬ (true = false)),
            List.map_cons]
        · intro bv hbv j hj
          obtain ⟨i, hi, rfl⟩ := List.mem_map.mp hbv
          simp only [rowMean]
          rw [getD_map_range _ _ j none hj]
          simp only [bucketRows, List.map_map]
          rfl
        · intro r hr
          have hb : r.1 / 60 ∈ (r0.1 / 60) :: rest.map (fun x => x.1 / 60) := by
            rcases List.mem_cons.mp hr with rfl | h
            · exact List.mem_cons_self _ _
            · exact List.mem_cons_of_mem _ (List.mem_map_of_mem _ h)
          have h1 : (rest.map (fun x => x.1 / 60)).foldl min (r0.1 / 60) ≤ r.1 / 60 := by
            rcases List.mem_cons.mp hb with heq | hmem
            · rw [heq]; exact (foldl_min_le _ _).1
            · exact (foldl_min_le _ _).2 _ hmem
          have h2 : r.1 / 60 ≤ (rest.map (fun x => x.1 / 60)).foldl max (r0.1 / 60) := by
            rcases List.mem_cons.mp hb with heq | hmem
            · rw [heq]; exact (le_foldl_max _ _).1
            · exact (le_foldl_max _ _).2 _ hmem
          refine ⟨_, List.mem_map.mpr
            ⟨r.1 / 60 - (rest.map (fun x => x.1 / 60)).foldl min (r0.1 / 60),
              List.mem_range.mpr (by omega), rfl⟩, ?_⟩
          simp only
          omega
    obtain ⟨out, hok, hmeans, hcover⟩ := hmain
    refine ⟨⟨fun he => ?_, fun h => absurd h (by decide)⟩,
      fun _ => ⟨out, hok, hmeans, hcover⟩⟩
    obtain ⟨e, he⟩ := he
    rw [hok] at he
    exact Except.noConfusion he

/-- Witness for C9's amended claim on a one-row, one-column table with a
datetime index, discharging the datetime-typed hypothesis. -/
theorem resample_to_hourly_spec_witness :
    ((∃ e, resample_to_hourly true 1 [(120, [some (2 : ℚ)])] = .error e) ↔
      true = false) ∧
    (∃ out, resample_to_hourly true 1 [(120, [some (2 : ℚ)])] = .ok out ∧
      (∀ bv ∈ out, ∀ j < 1,
        bv.2.getD j none =
          colMean (([(120, [some (2 : ℚ)])].filter (fun r => r.1 / 60 == bv.1)).map
            (fun r => r.2.getD j none))) ∧
      ∀ r ∈ [(120, [some (2 : ℚ)])], ∃ bv, bv ∈ out ∧ bv.1 = r.1 / 60) :=
  ⟨(resample_to_hourly_spec true 1 [(120, [some (2 : ℚ)])]).1,
    (resample_to_hourly_spec true 1 [(120, [some (2 : ℚ)])]).2 rfl⟩

/-- C7: skill-score boundary values — `skill_score(m, m) = 0` for every
positive `m`, and `skill_score(0, mae_baseline) = 1` for every positive
baseline MAE. -/
theorem skill_score_boundary (m mae_baseline : ℚ) (hm : 0 < m)
    (hb : 0 < mae_baseline) :
    skill_score m m = 0 ∧ skill_score 0 mae_baseline = 1 := by
  constructor
  · simp [skill_score, hm.ne', div_self]
  · simp [skill_score, hb.ne']

/-- Witness for C7 at `m = 2`, `mae_baseline = 3`. -/
theorem skill_score_boundary_witness :
    (0 : ℚ) < 2 ∧ (0 : ℚ) < 3 ∧ (skill_score 2 2 = 0 ∧ skill_score 0 3 = 1) :=
  ⟨by norm_num, by norm_num, skill_score_boundary 2 3 (by norm_num) (by norm_num)⟩

/-- C10: calling `decide_play` with an empty `median_forecast` raises no
error and yields decision `PLAY` with an empty per-horizon details dict,
for any q90 dict, any well-formed `play` threshold section and any
optional probability dict: zero horizons means zero violations. -/
theorem decide_play_empty_forecast (q90_forecast : List (String × ℚ))
    (play : PlaySection) (prob_over_threshold : Option (List (String × ℚ))) :
    decide_play [] q90_forecast play prob_over_threshold = .ok ⟨"PLAY", []⟩ :=
  rfl

/-- C2: on a non-empty target column, the persistence forecaster's
`predict_latest` returns one entry per configured horizon, keyed
`horizon_{h}h` in configuration order, and every entry carries the same
scalar — the last value of the target column. -/
theorem PersistenceModel.predict_latest_spec (horizons : List ℕ)
    (target : List ℚ) (h : target ≠ []) :
    ∃ l, PersistenceModel.predict_latest horizons target = .ok l ∧
      l.map Prod.fst = horizons.map horizonKey ∧
      ∀ p ∈ l, p.2 = target.getLast h := by
  have hlast : target.getLastD 0 = target.getLast h := by
    rw [List.getLastD_eq_getLast?, List.getLast?_eq_getLast target h]
    rfl
  refine ⟨horizons.map (fun hz => (horizonKey hz, target.getLastD 0)), ?_, ?_, ?_⟩
  · rw [PersistenceModel.predict_latest, if_neg (by simp [h])]
  · simp
  · intro p hp
    obtain ⟨hz, _, rfl⟩ := List.mem_map.mp hp
    exact hlast

/-- Witness for C2 on the target column `[1, 2, 3.7]` with the configured
horizons `[1, 3, 6]`. -/
theorem PersistenceModel.predict_latest_spec_witness :
    ([(1 : ℚ), 2, 37/10] ≠ []) ∧
      ∃ l, PersistenceModel.predict_latest HORIZONS [(1 : ℚ), 2, 37/10] = .ok l ∧
        l.map Prod.fst = HORIZONS.map horizonKey ∧
        ∀ p ∈ l, p.2 = List.getLast [(1 : ℚ), 2, 37/10] (by decide) :=
  ⟨by decide, PersistenceModel.predict_latest_spec HORIZONS [(1 : ℚ), 2, 37/10] (by decide)⟩

/-- C3 (code bug): on the hourly series `[0, NaN, NaN, NaN, NaN, 5]` with
`max_gap_hours = 3`, the run of four consecutive missing values — longer
than the configured maximum — does not remain entirely missing: pandas'
`interpolate(limit=3)` caps the number of consecutive fills, so the first
three positions of the run are filled (with 1, 2, 3, interpolated against
both anchors of the full gap) and only the fourth stays missing.  This
contradicts the function's own docstring ("Larger gaps are left as NaN")
and the spec sentence derived from it. -/
theorem fill_small_gaps_long_gap_partially_filled :
    fill_small_gaps [some 0, none, none, none, none, some 5] 3 =
      [some 0, some 1, some 2, some 3, none, some 5] := by
  norm_num [fill_small_gaps, interpAt, prevValidIdx, nextValidIdx,
    List.range_succ, List.getD]

/-- C6: `compute_q90` has two paths — with a non-empty residual array the
q90 forecast is the point prediction plus the 90th percentile of the
absolute residuals, elementwise, with no warning; without residuals it is
the point prediction times the fixed factor 1.2, elementwise, and the
warning flag is set. -/
theorem compute_q90_two_paths (predictions rs : List ℚ) (hrs : rs ≠ []) :
    ((compute_q90 predictions (some rs)).2 = false ∧
      (compute_q90 predictions (some rs)).1.length = predictions.length ∧
      ∀ i < predictions.length,
        (compute_q90 predictions (some rs)).1.getD i 0 =
          predictions.getD i 0 + percentile (rs.map (fun x => |x|)) 90) ∧
    ((compute_q90 predictions none).2 = true ∧
      (compute_q90 predictions none).1.length = predictions.length ∧
      ∀ i < predictions.length,
        (compute_q90 predictions none).1.getD i 0 = predictions.getD i 0 * 1.2) := by
  have hlen : rs.length > 0 := List.length_pos.mpr hrs
  refine ⟨⟨?_, ?_, ?_⟩, rfl, by simp [compute_q90], ?_⟩
  · simp [compute_q90, hlen]
  · simp [compute_q90, hlen]
  · intro i hi
    simp only [compute_q90, if_pos hlen]
    exact getD_map _ predictions i 0 0 hi
  · intro i hi
    simp only [compute_q90]
    exact getD_map _ predictions i 0 0 hi

/-- Witness for C6 with predictions `[1, 2]` and residuals `[1, -3, 2]`
(the 90th percentile of `[1, 3, 2]` is 2.8, numpy linear interpolation). -/
theorem compute_q90_two_paths_witness :
    ([(1 : ℚ), -3, 2] ≠ []) ∧
      (((compute_q90 [(1 : ℚ), 2] (some [1, -3, 2])).2 = false ∧
        (compute_q90 [(1 : ℚ), 2] (some [1, -3, 2])).1.length = [(1 : ℚ), 2].length ∧
        ∀ i < [(1 : ℚ), 2].length,
          (compute_q90 [(1 : ℚ), 2] (some [1, -3, 2])).1.getD i 0 =
            [(1 : ℚ), 2].getD i 0 + percentile ([(1 : ℚ), -3, 2].map (fun x => |x|)) 90) ∧
      ((compute_q90 [(1 : ℚ), 2] none).2 = true ∧
        (compute_q90 [(1 : ℚ), 2] none).1.length = [(1 : ℚ), 2].length ∧
        ∀ i < [(1 : ℚ), 2].length,
          (compute_q90 [(1 : ℚ), 2] none).1.getD i 0 = [(1 : ℚ), 2].getD i 0 * 1.2)) :=
  ⟨by decide, compute_q90_two_paths [(1 : ℚ), 2] [1, -3, 2] (by decide)⟩

end BadmintonBot
